import Mathlib

/-!
Verification of the cerana node-local task-dispatch fabric.

The development shallowly embeds the request/response correlation layer
(`acomm`: Request/Response envelope, transport `Send`, `Tracker`,
`MultiRequest`) and the caller / provider code from the repository
(`cmd/statspusher/bundle.go`, `providers/clusterconf` service tasks,
`providers/health/httpstatus.go`).

The `acomm` package itself is not part of the source tree here; only its
callers are.  Its definitions below are therefore modelled from the spec
(sections 3, 4.2, 4.3, 4.4), as indicated in each doc comment.  Caller and
provider code is translated directly from the Go source.

Modelling conventions:
  * machine integers become `Nat`/`Int` (no overflow is relevant here);
  * opaque payloads and addresses become `String`;
  * callbacks (`SuccessHandler`/`ErrorHandler`) are not stored as function
    values: handler invocation is recorded as an explicit `Event` emitted by
    the operation that fires it, which is what the at-most-once claims are
    about;
  * I/O (the wire, the KV store, the HTTP client) is passed in explicitly as
    state or as an outcome parameter.
-/

/-- Modelled from the spec (section 7): the error taxonomy of the core. -/
inductive AErr where
  | invalidArgument
  | serializationError
  | transportUnavailable
  | alreadyTracked
  | duplicateName
  | invalidTimeout
  | timeout
  | task (msg : String)
deriving DecidableEq, Repr

/-- Modelled from the spec (section 3, Response): correlation id plus an
opaque success payload or a structured error, never both. -/
structure Response where
  requestID : String
  result : Option String
  error : Option AErr
deriving DecidableEq, Repr

/-- Modelled from the spec (section 3, Request): the wire-level task
invocation.  Handlers are modelled as events (see `Event`), not fields. -/
structure Request where
  id : String
  task : String
  targetAddress : Option String
  args : String
  responseHook : Option String
deriving DecidableEq, Repr

/-- Modelled from the spec (section 4.3, Reaper): the Response synthesized
for an entry whose deadline passed while still pending. -/
def timeoutResponse (id : String) : Response :=
  { requestID := id, result := none, error := some AErr.timeout }

/-- A handler invocation, recorded explicitly: which handler fired, for
which request, with which Response. -/
inductive Event where
  | successHandler (reqID : String) (resp : Response)
  | errorHandler (reqID : String) (resp : Response)
deriving DecidableEq, Repr

/-- Modelled from the spec (section 3, TrackedEntry): the originating
request and an absolute deadline.  Per the spec an entry is destroyed the
instant it resolves, so presence in the registry is exactly `Pending`. -/
structure TrackedEntry where
  req : Request
  deadline : Nat
deriving DecidableEq, Repr

/-- Modelled from the spec (section 4.3): registry of outstanding requests
keyed by correlation id, plus the Tracker's own listening address. -/
structure Tracker where
  addr : String
  registry : List (String × TrackedEntry)
deriving DecidableEq, Repr

/-- Modelled from the spec (section 4.3): the address accessor. -/
def Tracker.URL (t : Tracker) : String := t.addr

/-- Modelled from the spec (section 4.3, TrackRequest): stamps the response
hook with the Tracker's own address, computes an absolute deadline, inserts
a pending entry; fails on duplicate id or non-positive timeout. -/
def trackRequest (t : Tracker) (req : Request) (timeout : Int) (now : Nat) :
    Except AErr (Tracker × Request) :=
  if timeout ≤ 0 then Except.error AErr.invalidTimeout
  else if (t.registry.lookup req.id).isSome then Except.error AErr.alreadyTracked
  else
    let req' := { req with responseHook := some t.addr }
    Except.ok
      ({ t with registry :=
          t.registry ++ [(req.id, { req := req', deadline := now + timeout.toNat })] },
        req')

/-- Modelled from the spec (section 4.3, RemoveRequest): best-effort
cancellation; removes the entry if still pending (resolved entries are
already gone), never emits a handler event. -/
def removeRequest (t : Tracker) (req : Request) : Tracker × List Event :=
  ({ t with registry := t.registry.filter (fun p => p.1 != req.id) }, [])

/-- Modelled from the spec (section 4.3, Listener): on a matching inbound
Response, atomically resolve and discard the entry and fire the matching
handler; unknown ids are dropped without any handler invocation. -/
def deliverResponse (t : Tracker) (resp : Response) : Tracker × List Event :=
  match t.registry.lookup resp.requestID with
  | none => (t, [])
  | some _ =>
      ({ t with registry := t.registry.filter (fun p => p.1 != resp.requestID) },
        [if resp.error.isSome then Event.errorHandler resp.requestID resp
          else Event.successHandler resp.requestID resp])

/-- Modelled from the spec (section 4.3, Reaper): if the entry is still
pending and its deadline has passed, atomically resolve it as a timeout,
fire the error handler with a synthesized Response, and discard it. -/
def reapEntry (t : Tracker) (id : String) (now : Nat) : Tracker × List Event :=
  match t.registry.lookup id with
  | none => (t, [])
  | some entry =>
      if entry.deadline < now then
        ({ t with registry := t.registry.filter (fun p => p.1 != id) },
          [Event.errorHandler id (timeoutResponse id)])
      else (t, [])

section AssocListLemmas

variable {β : Type}

theorem lookup_filter_ne_self (l : List (String × β)) (k : String) :
    (l.filter (fun p => p.1 != k)).lookup k = none := by
  induction l with
  | nil => rfl
  | cons x xs ih =>
      by_cases h : x.1 = k
      · simp [List.filter_cons, h, ih]
      · simp only [List.filter_cons]
        have hb : (x.1 != k) = true := by simp [bne, h]
        rw [hb]
        simp only [if_true]
        have hk : (k == x.1) = false := by
          simp [beq_iff_eq]
          exact fun hc => h hc.symm
        simp [List.lookup, hk, ih]

theorem filter_ne_idem (l : List (String × β)) (k : String) :
    ((l.filter (fun p => p.1 != k)).filter (fun p => p.1 != k)) =
      l.filter (fun p => p.1 != k) := by
  induction l with
  | nil => rfl
  | cons x xs ih =>
      cases h : (x.1 != k) with
      | false => simp [List.filter_cons, h, ih]
      | true => simp [List.filter_cons, h, ih]

theorem lookup_append_right (l : List (String × β)) (k : String) (v : β)
    (h : l.lookup k = none) : (l ++ [(k, v)]).lookup k = some v := by
  induction l with
  | nil => simp [List.lookup]
  | cons x xs ih =>
      by_cases hx : k = x.1
      · exfalso
        have : (k == x.1) = true := by simp [beq_iff_eq, hx]
        simp [List.lookup, this] at h
      · have hk : (k == x.1) = false := by simp [beq_iff_eq]; exact hx
        simp only [List.cons_append, List.lookup, hk]
        apply ih
        simp only [List.lookup, hk] at h
        exact h

end AssocListLemmas

/-- Claim C4: `RemoveRequest` removes the entry if still Pending and is a
no-op on an entry already resolved or removed; a second `RemoveRequest` on
the same Request is a no-op with no error, and `RemoveRequest` never
invokes a success or error handler. -/
theorem removeRequest_idempotent_no_handlers (t : Tracker) (req : Request) :
    (removeRequest t req).2 = [] ∧
    ((removeRequest t req).1.registry.lookup req.id) = none ∧
    removeRequest (removeRequest t req).1 req = ((removeRequest t req).1, []) := by
  refine ⟨rfl, lookup_filter_ne_self t.registry req.id, ?_⟩
  simp only [removeRequest]
  rw [filter_ne_idem]

/-- Claim C1: the transition out of Pending happens exactly once, via
whichever of response arrival or deadline expiry comes first; the second
trigger, finding the entry already resolved, is a no-op that invokes no
handler.  Stated for both interleavings: in each order the two triggers
together emit exactly one handler event. -/
theorem tracker_at_most_once_handler (t : Tracker) (resp : Response)
    (entry : TrackedEntry) (now : Nat)
    (htracked : t.registry.lookup resp.requestID = some entry) :
    ((deliverResponse t resp).2 ++
        (reapEntry (deliverResponse t resp).1 resp.requestID now).2).length = 1 ∧
    (entry.deadline < now →
      ((reapEntry t resp.requestID now).2 ++
          (deliverResponse (reapEntry t resp.requestID now).1 resp).2).length = 1) := by
  constructor
  · simp only [deliverResponse, htracked]
    simp only [reapEntry, lookup_filter_ne_self]
    simp
  · intro hd
    simp only [reapEntry, htracked, if_pos hd]
    simp only [deliverResponse, lookup_filter_ne_self]
    simp

def reqW1 : Request :=
  { id := "r1", task := "echo", targetAddress := none, args := "",
    responseHook := some "unix:tracker" }

def trackerW1 : Tracker :=
  { addr := "unix:tracker", registry := [("r1", { req := reqW1, deadline := 5 })] }

def respW1 : Response := { requestID := "r1", result := some "ok", error := none }

/-- Witness for C1 at a concrete tracker, response and time. -/
theorem tracker_at_most_once_handler_witness :
    trackerW1.registry.lookup respW1.requestID =
        some { req := reqW1, deadline := 5 } ∧
    (((deliverResponse trackerW1 respW1).2 ++
        (reapEntry (deliverResponse trackerW1 respW1).1 respW1.requestID 10).2).length = 1 ∧
      ((5 : Nat) < 10 →
        ((reapEntry trackerW1 respW1.requestID 10).2 ++
            (deliverResponse (reapEntry trackerW1 respW1.requestID 10).1 respW1).2).length = 1)) :=
  ⟨rfl, tracker_at_most_once_handler trackerW1 respW1 { req := reqW1, deadline := 5 } 10 rfl⟩

/-- Claim C3: for a Request tracked with timeout `t`, if no Response for
its ID is delivered within `t` and the reaper then runs past the deadline,
the error handler fires exactly once with a Timeout error, and the entry is
removed from the registry so a subsequent lookup by that ID fails (a second
reap is a no-op). -/
theorem tracker_timeout_fires_once (t : Tracker) (req : Request)
    (timeout : Int) (now now' : Nat) (t' : Tracker) (req' : Request)
    (h : trackRequest t req timeout now = Except.ok (t', req'))
    (hlate : now + timeout.toNat < now') :
    (reapEntry t' req.id now').2 =
        [Event.errorHandler req.id (timeoutResponse req.id)] ∧
    (reapEntry t' req.id now').1.registry.lookup req.id = none ∧
    (reapEntry (reapEntry t' req.id now').1 req.id now').2 = [] := by
  unfold trackRequest at h
  by_cases h1 : timeout ≤ 0
  · simp [h1] at h
  · simp only [if_neg h1] at h
    by_cases h2 : (t.registry.lookup req.id).isSome = true
    · simp [h2] at h
    · simp only [h2, if_false, Bool.false_eq_true] at h
      have hnone : t.registry.lookup req.id = none := by
        cases hc : t.registry.lookup req.id with
        | none => rfl
        | some v => rw [hc] at h2; exact absurd rfl h2
      simp only [Except.ok.injEq, Prod.mk.injEq] at h
      obtain ⟨ht, hr⟩ := h
      subst ht
      have hlook :
          ((t.registry ++
            [(req.id, ({ req := ({ req with responseHook := some t.addr }),
                         deadline := now + timeout.toNat } : TrackedEntry))]).lookup req.id) =
            some { req := ({ req with responseHook := some t.addr }),
                   deadline := now + timeout.toNat } :=
        lookup_append_right t.registry req.id _ hnone
      refine ⟨?_, ?_, ?_⟩
      · simp only [reapEntry, hlook, if_pos hlate]
      · simp only [reapEntry, hlook, if_pos hlate]
        exact lookup_filter_ne_self _ req.id
      · simp only [reapEntry, hlook, if_pos hlate]
        simp only [reapEntry, lookup_filter_ne_self]

def reqW3 : Request :=
  { id := "r3", task := "metrics-host", targetAddress := none, args := "",
    responseHook := none }

def trackerW3 : Tracker := { addr := "unix:tracker", registry := [] }

def reqW3' : Request := { reqW3 with responseHook := some "unix:tracker" }

def trackerW3' : Tracker :=
  { addr := "unix:tracker", registry := [("r3", { req := reqW3', deadline := 2 })] }

/-- Witness for C3 at a concrete tracker and request, timeout 2 reaped at
time 3. -/
theorem tracker_timeout_fires_once_witness :
    trackRequest trackerW3 reqW3 2 0 = Except.ok (trackerW3', reqW3') ∧
    0 + (2 : Int).toNat < 3 ∧
    ((reapEntry trackerW3' reqW3.id 3).2 =
        [Event.errorHandler reqW3.id (timeoutResponse reqW3.id)] ∧
      (reapEntry trackerW3' reqW3.id 3).1.registry.lookup reqW3.id = none ∧
      (reapEntry (reapEntry trackerW3' reqW3.id 3).1 reqW3.id 3).2 = []) :=
  ⟨rfl, by decide,
    tracker_timeout_fires_once trackerW3 reqW3 2 0 3 trackerW3' reqW3' rfl (by decide)⟩

/-- Modelled from the spec (section 4.4): a fan-out/join group over one
Tracker.  `names` maps each caller-chosen member name to the correlation id
of its Request; `timeout` is the shared deadline.  Registration with the
underlying Tracker and the completion accounting are abstracted: resolution
state is supplied to `mrResponses` as the map of arrived Responses. -/
structure MultiRequest where
  names : List (String × String)
  timeout : Int
deriving DecidableEq, Repr

/-- Modelled from the spec (section 4.4, AddRequest): records
`name ↦ req.ID`; fails with DuplicateName if the name is already present. -/
def mrAddRequest (m : MultiRequest) (name : String) (req : Request) :
    Except AErr MultiRequest :=
  if (m.names.lookup name).isSome then Except.error AErr.duplicateName
  else Except.ok { m with names := m.names ++ [(name, req.id)] }

/-- Modelled from the spec (section 4.4, RemoveRequest): removes the name
mapping for this request so it will not be waited on (and forwards to the
Tracker's RemoveRequest, modelled separately by `removeRequest`). -/
def mrRemoveRequest (m : MultiRequest) (req : Request) : MultiRequest :=
  { m with names := m.names.filter (fun p => p.2 != req.id) }

/-- Modelled from the spec (section 4.4, Responses): returns a mapping from
each member name to its final Response — the arrived Response for resolved
members, a synthesized timeout Response for members still unresolved at the
deadline. -/
def mrResponses (m : MultiRequest) (arrived : String → Option Response) :
    List (String × Response) :=
  m.names.map (fun p => (p.1, (arrived p.2).getD (timeoutResponse p.2)))

/-- A caller-visible group operation: the add/remove history of a group. -/
inductive MOp where
  | add (name : String) (req : Request)
  | remove (req : Request)
deriving DecidableEq, Repr

/-- Applies one group operation; a failed AddRequest leaves the group
unchanged (the caller gets the error synchronously). -/
def applyOp (m : MultiRequest) : MOp → MultiRequest
  | MOp.add name req =>
      match mrAddRequest m name req with
      | Except.ok m' => m'
      | Except.error _ => m
  | MOp.remove req => mrRemoveRequest m req

/-- Applies a history of group operations in order. -/
def applyOps (m : MultiRequest) : List MOp → MultiRequest
  | [] => m
  | op :: ops => applyOps (applyOp m op) ops

/-- `(name, id)` is a member pair and the only pair carrying `name`. -/
def UniqueEntry (l : List (String × String)) (name id : String) : Prop :=
  (name, id) ∈ l ∧ ∀ p ∈ l, p.1 = name → p = (name, id)

theorem lookup_eq_none_notin {β : Type} (l : List (String × β)) (k : String)
    (h : l.lookup k = none) : ∀ p ∈ l, p.1 ≠ k := by
  induction l with
  | nil => intro p hp; cases hp
  | cons x xs ih =>
      intro p hp
      by_cases hx : k = x.1
      · exfalso
        have hb : (k == x.1) = true := by simp [beq_iff_eq, hx]
        simp [List.lookup, hb] at h
      · have hb : (k == x.1) = false := by simp [beq_iff_eq]; exact hx
        simp only [List.lookup, hb] at h
        rcases List.mem_cons.mp hp with hp | hp
        · subst hp; exact fun hc => hx hc.symm
        · exact ih h p hp

theorem uniqueEntry_of_add (m m' : MultiRequest) (name : String) (req : Request)
    (hadd : mrAddRequest m name req = Except.ok m') :
    UniqueEntry m'.names name req.id := by
  unfold mrAddRequest at hadd
  by_cases h1 : (m.names.lookup name).isSome = true
  · simp [h1] at hadd
  · simp only [h1, if_false, Bool.false_eq_true, Except.ok.injEq] at hadd
    have hnone : m.names.lookup name = none := by
      cases hc : m.names.lookup name with
      | none => rfl
      | some v => rw [hc] at h1; exact absurd rfl h1
    subst hadd
    constructor
    · simp
    · intro p hp hp1
      rcases List.mem_append.mp hp with hin | hin
      · exact absurd hp1 (lookup_eq_none_notin m.names name hnone p hin)
      · simpa using hin

theorem uniqueEntry_applyOp (m : MultiRequest) (op : MOp) (name id : String)
    (hu : UniqueEntry m.names name id)
    (hno : ∀ r, op = MOp.remove r → r.id ≠ id) :
    UniqueEntry (applyOp m op).names name id := by
  obtain ⟨hmem, huniq⟩ := hu
  cases op with
  | add n' r' =>
      simp only [applyOp]
      cases hc : mrAddRequest m n' r' with
      | error e => exact ⟨hmem, huniq⟩
      | ok m' =>
          unfold mrAddRequest at hc
          by_cases h1 : (m.names.lookup n').isSome = true
          · simp [h1] at hc
          · simp only [h1, if_false, Bool.false_eq_true, Except.ok.injEq] at hc
            have hnone : m.names.lookup n' = none := by
              cases hd : m.names.lookup n' with
              | none => rfl
              | some v => rw [hd] at h1; exact absurd rfl h1
            have hne : n' ≠ name := by
              intro he
              exact lookup_eq_none_notin m.names n' hnone (name, id) hmem he.symm
            subst hc
            constructor
            · simp [hmem]
            · intro p hp hp1
              rcases List.mem_append.mp hp with hin | hin
              · exact huniq p hin hp1
              · simp only [List.mem_singleton] at hin
                subst hin
                exact absurd hp1 hne
  | remove r =>
      have hrid : r.id ≠ id := hno r rfl
      simp only [applyOp, mrRemoveRequest]
      constructor
      · apply List.mem_filter.mpr
        refine ⟨hmem, ?_⟩
        simp [bne, beq_iff_eq]
        exact fun hc => hrid hc.symm
      · intro p hp hp1
        exact huniq p (List.mem_filter.mp hp).1 hp1

theorem uniqueEntry_applyOps (m : MultiRequest) (ops : List MOp) (name id : String)
    (hu : UniqueEntry m.names name id)
    (hno : ∀ r, MOp.remove r ∈ ops → r.id ≠ id) :
    UniqueEntry (applyOps m ops).names name id := by
  induction ops generalizing m with
  | nil => exact hu
  | cons op rest ih =>
      simp only [applyOps]
      apply ih
      · exact uniqueEntry_applyOp m op name id hu
          (fun r hr => hno r (by rw [hr]; exact List.mem_cons_self _ _))
      · exact fun r hr => hno r (List.mem_cons_of_mem _ hr)

theorem mrResponses_lookup_of_unique (names : List (String × String))
    (tmo : Int) (arrived : String → Option Response) (name id : String)
    (hu : UniqueEntry names name id) :
    (mrResponses { names := names, timeout := tmo } arrived).lookup name =
      some ((arrived id).getD (timeoutResponse id)) := by
  induction names with
  | nil => exact absurd hu.1 (List.not_mem_nil _)
  | cons x xs ih =>
      obtain ⟨hmem, huniq⟩ := hu
      by_cases hx : x.1 = name
      · have hxeq : x = (name, id) := huniq x (List.mem_cons_self _ _) hx
        subst hxeq
        simp [mrResponses, List.lookup]
      · have hb : (name == x.1) = false := by
          simp [beq_iff_eq]; exact fun hc => hx hc.symm
        have hmem' : (name, id) ∈ xs := by
          rcases List.mem_cons.mp hmem with h | h
          · have hx1 : x.1 = name := by rw [← h]
            exact absurd hx1 hx
          · exact h
        have huniq' : ∀ p ∈ xs, p.1 = name → p = (name, id) :=
          fun p hp => huniq p (List.mem_cons_of_mem _ hp)
        have hres := ih ⟨hmem', huniq'⟩
        simpa [mrResponses, List.lookup, hb] using hres

/-- Claim C2: once `Responses()` returns, every name added via
`AddRequest` and not subsequently removed via `RemoveRequest` has an entry
in the result mapping: the arrived Response if the member resolved, a
synthesized timeout Response if it was still unresolved at the deadline. -/
theorem mrResponses_covers_all_added (m m' : MultiRequest) (name : String)
    (req : Request) (ops : List MOp) (arrived : String → Option Response)
    (hadd : mrAddRequest m name req = Except.ok m')
    (hno : ∀ r, MOp.remove r ∈ ops → r.id ≠ req.id) :
    (mrResponses (applyOps m' ops) arrived).lookup name =
      some ((arrived req.id).getD (timeoutResponse req.id)) := by
  have hu := uniqueEntry_applyOps m' ops name req.id
    (uniqueEntry_of_add m m' name req hadd) hno
  have := mrResponses_lookup_of_unique (applyOps m' ops).names
    (applyOps m' ops).timeout arrived name req.id hu
  simpa using this

def mrW2 : MultiRequest := { names := [], timeout := 5 }

def reqW2 : Request :=
  { id := "r2", task := "list-bundles", targetAddress := some "unix:heartbeat",
    args := "", responseHook := none }

/-- Witness for C2: a group with one added member, no removals, and no
arrived response — the mapping reports the synthesized timeout. -/
theorem mrResponses_covers_all_added_witness :
    mrAddRequest mrW2 "known" reqW2 =
        Except.ok { names := [("known", "r2")], timeout := 5 } ∧
    (mrResponses (applyOps { names := [("known", "r2")], timeout := 5 } [])
        (fun _ => none)).lookup "known" =
      some (((fun (_ : String) => none (α := Response)) reqW2.id).getD
        (timeoutResponse reqW2.id)) :=
  ⟨rfl, mrResponses_covers_all_added mrW2 { names := [("known", "r2")], timeout := 5 }
    "known" reqW2 [] (fun _ => none) rfl (by intro r hr; cases hr)⟩

/-- Modelled from the spec (section 4.2): transport-visible state — the
envelopes handed off to the wire, and, to express the delivery-versus-task-
completion distinction, the list of tasks that have actually run (which the
transport never touches). -/
structure WireState where
  sent : List (String × Request)
  completed : List String
deriving DecidableEq, Repr

/-- Modelled from the spec (section 4.2, Send): serializes the Request and
writes it to the destination (falling back to the default coordinator
address when absent); fails synchronously with SerializationError or
TransportUnavailable; on success the envelope is appended to the wire and
the Request is handed back untouched. -/
def Send (w : WireState) (targetAddress : Option String) (defaultAddr : String)
    (req : Request) (serializable reachable : Bool) :
    Except AErr (WireState × Request) :=
  if serializable = false then Except.error AErr.serializationError
  else if reachable = false then Except.error AErr.transportUnavailable
  else Except.ok
    ({ w with sent := w.sent ++ [(targetAddress.getD defaultAddr, req)] }, req)

/-- Claim C8: `Send` leaves every field of the Request unchanged; its only
effect is the I/O write handing the serialized request off, and a
successful return implies delivery handoff only — the task-completion state
is untouched. -/
theorem send_no_mutation_delivery_only (w : WireState)
    (targetAddress : Option String) (defaultAddr : String) (req : Request)
    (serializable reachable : Bool) (w' : WireState) (req' : Request)
    (h : Send w targetAddress defaultAddr req serializable reachable =
      Except.ok (w', req')) :
    req' = req ∧ w'.completed = w.completed ∧
    w'.sent = w.sent ++ [(targetAddress.getD defaultAddr, req)] := by
  unfold Send at h
  by_cases h1 : serializable = false
  · rw [if_pos h1] at h; simp at h
  · rw [if_neg h1] at h
    by_cases h2 : reachable = false
    · rw [if_pos h2] at h; simp at h
    · rw [if_neg h2] at h
      simp only [Except.ok.injEq, Prod.mk.injEq] at h
      obtain ⟨hw, hr⟩ := h
      subst hw
      exact ⟨hr.symm, rfl, rfl⟩

def wireW8 : WireState := { sent := [], completed := [] }

def reqW8 : Request :=
  { id := "r8", task := "bundle-heartbeat", targetAddress := some "unix:heartbeat",
    args := "args", responseHook := some "unix:tracker" }

/-- Witness for C8 at a concrete wire state and request. -/
theorem send_no_mutation_delivery_only_witness :
    Send wireW8 (some "unix:coordinator") "unix:default" reqW8 true true =
        Except.ok ({ sent := [("unix:coordinator", reqW8)], completed := [] }, reqW8) ∧
    (reqW8 = reqW8 ∧
      ({ sent := [("unix:coordinator", reqW8)], completed := [] } : WireState).completed =
        wireW8.completed ∧
      ({ sent := [("unix:coordinator", reqW8)], completed := [] } : WireState).sent =
        wireW8.sent ++ [((some "unix:coordinator").getD "unix:default", reqW8)]) :=
  ⟨rfl, send_no_mutation_delivery_only wireW8 (some "unix:coordinator") "unix:default"
    reqW8 true true { sent := [("unix:coordinator", reqW8)], completed := [] } reqW8 rfl⟩

/-- Modelled from the spec (sections 3 and 4.1) and the construction call
sites in cmd/statspusher/bundle.go: the options accepted by request
construction.  The handler callback fields are presence flags here, since
callbacks are modelled as events. -/
structure RequestOptions where
  task : String
  taskURL : Option String
  args : String
  responseHook : Option String
  hasSuccessHandler : Bool
  hasErrorHandler : Bool
deriving DecidableEq, Repr

/-- Modelled from the spec (section 4.1): builds a Request from options;
fails with InvalidArgument on an empty Task; `genID` stands for the fresh
random correlation id generated at construction. -/
def NewRequest (genID : String) (opts : RequestOptions) : Except AErr Request :=
  if opts.task = "" then Except.error AErr.invalidArgument
  else Except.ok
    { id := genID, task := opts.task, targetAddress := opts.taskURL,
      args := opts.args, responseHook := opts.responseHook }

/-- Translated from cmd/statspusher/bundle.go, getSerial (lines 90–95): the
RequestOptions the stats pusher passes to NewRequest for the
"metrics-host" task.  The ResponseHook field is filled in directly by this
caller, from the tracker's URL() accessor. -/
def getSerialRequestOptions (t : Tracker) : RequestOptions :=
  { task := "metrics-host", taskURL := none, args := "",
    responseHook := some t.URL,
    hasSuccessHandler := true, hasErrorHandler := true }

def trackerW5 : Tracker := { addr := "unix:tracker", registry := [] }

/-- Counterexample to C5 as stated: in the statspusher's getSerial the
task-issuing caller code itself sets the ResponseHook field (to the
tracker's URL), rather than leaving it for TrackRequest to stamp. -/
theorem getSerial_sets_responseHook_directly :
    (getSerialRequestOptions trackerW5).responseHook ≠ none := by
  simp [getSerialRequestOptions]

/-- Claim C5 (amended): the ResponseHook always carries the tracking
Tracker's own listening address — stamped by TrackRequest for tracked
requests, and, where caller code fills it directly (getSerial), taken from
that same Tracker's URL() accessor. -/
theorem responseHook_is_tracker_address (t : Tracker) (req : Request)
    (timeout : Int) (now : Nat) (t' : Tracker) (req' : Request)
    (h : trackRequest t req timeout now = Except.ok (t', req')) :
    (getSerialRequestOptions t).responseHook = some t.URL ∧
    req'.responseHook = some t.URL := by
  refine ⟨rfl, ?_⟩
  unfold trackRequest at h
  by_cases h1 : timeout ≤ 0
  · simp [h1] at h
  · simp only [if_neg h1] at h
    by_cases h2 : (t.registry.lookup req.id).isSome = true
    · simp [h2] at h
    · simp only [h2, if_false, Bool.false_eq_true, Except.ok.injEq,
        Prod.mk.injEq] at h
      obtain ⟨ht, hr⟩ := h
      rw [← hr]
      rfl

def reqW5 : Request :=
  { id := "r5", task := "metrics-host", targetAddress := none, args := "",
    responseHook := none }

/-- Witness for the amended C5 at a concrete tracker and request. -/
theorem responseHook_is_tracker_address_witness :
    trackRequest trackerW5 reqW5 1 0 =
        Except.ok
          ({ addr := "unix:tracker",
             registry := [("r5", { req := { reqW5 with responseHook := some "unix:tracker" },
                                   deadline := 1 })] },
            { reqW5 with responseHook := some "unix:tracker" }) ∧
    ((getSerialRequestOptions trackerW5).responseHook = some trackerW5.URL ∧
      ({ reqW5 with responseHook := some "unix:tracker" } : Request).responseHook =
        some trackerW5.URL) :=
  ⟨rfl, responseHook_is_tracker_address trackerW5 reqW5 1 0 _ _ rfl⟩

/-- A tracked call made by the statspusher loops: AddRequest on a name with
its request's correlation id (with success flag), Send on a request (with
success flag), or RemoveRequest on a request. -/
inductive CallEv where
  | addReq (name : String) (id : String) (ok : Bool)
  | send (id : String) (ok : Bool)
  | removeReq (id : String)
deriving DecidableEq, Repr

/-- Translated from cmd/statspusher/bundle.go, getBundles (lines 50–58):
for each (name, request) pair, AddRequest then — only if it succeeded —
Send; on AddRequest failure break out, on Send failure RemoveRequest and
break out.  `addOk`/`sendOk` supply the synchronous outcomes of the two
fallible calls; map iteration order is the list order (quantified over all
orders in the theorems). -/
def getBundlesLoop (addOk : String → Bool) (sendOk : String → Bool) :
    List (String × Request) → List CallEv
  | [] => []
  | (name, req) :: rest =>
      if addOk name then
        if sendOk req.id then
          CallEv.addReq name req.id true :: CallEv.send req.id true ::
            getBundlesLoop addOk sendOk rest
        else
          [CallEv.addReq name req.id true, CallEv.send req.id false,
            CallEv.removeReq req.id]
      else
        [CallEv.addReq name req.id false]

/-- Translated from cmd/statspusher/bundle.go, sendBundleHeartbeats (lines
123–146): for each bundle, NewRequest (no tracked call on failure, just
continue), AddRequest, Send — continuing with the next bundle after any
failure, with RemoveRequest on Send failure. -/
def sendHeartbeatsLoop (newReqOk addOk sendOk : Nat → Bool) :
    List Nat → List CallEv
  | [] => []
  | b :: rest =>
      if newReqOk b then
        if addOk b then
          if sendOk b then
            CallEv.addReq (Nat.repr b) (Nat.repr b) true ::
              CallEv.send (Nat.repr b) true ::
                sendHeartbeatsLoop newReqOk addOk sendOk rest
          else
            CallEv.addReq (Nat.repr b) (Nat.repr b) true ::
              CallEv.send (Nat.repr b) false :: CallEv.removeReq (Nat.repr b) ::
                sendHeartbeatsLoop newReqOk addOk sendOk rest
        else
          CallEv.addReq (Nat.repr b) (Nat.repr b) false ::
            sendHeartbeatsLoop newReqOk addOk sendOk rest
      else
        sendHeartbeatsLoop newReqOk addOk sendOk rest

/-- Checks a call trace for the documented caller contract: every
successful AddRequest is immediately followed by a Send for the same
request, and every failed Send is immediately followed by a RemoveRequest
for the same request. -/
def sendAfterAdd : List CallEv → Bool
  | [] => true
  | CallEv.addReq _ id true :: rest =>
      (match rest with
        | CallEv.send id' _ :: _ => id == id'
        | _ => false) && sendAfterAdd rest
  | CallEv.send id false :: rest =>
      (match rest with
        | CallEv.removeReq id' :: _ => id == id'
        | _ => false) && sendAfterAdd rest
  | _ :: rest => sendAfterAdd rest

/-- Claim C7: in both MultiRequest call sites of the statspusher
(getBundles and sendBundleHeartbeats), every request whose AddRequest
succeeds has Send invoked for it immediately afterwards, and whenever that
Send fails, RemoveRequest is called on that request. -/
theorem statspusher_send_follows_add (addOkB sendOkB : String → Bool)
    (reqs : List (String × Request)) (newReqOk addOk sendOk : Nat → Bool)
    (bundles : List Nat) :
    sendAfterAdd (getBundlesLoop addOkB sendOkB reqs) = true ∧
    sendAfterAdd (sendHeartbeatsLoop newReqOk addOk sendOk bundles) = true := by
  constructor
  · induction reqs with
    | nil => rfl
    | cons x rest ih =>
        obtain ⟨name, req⟩ := x
        cases h1 : addOkB name with
        | true =>
            cases h2 : sendOkB req.id with
            | true => simp [getBundlesLoop, h1, h2, sendAfterAdd, ih]
            | false => simp [getBundlesLoop, h1, h2, sendAfterAdd]
        | false => simp [getBundlesLoop, h1, sendAfterAdd]
  · induction bundles with
    | nil => rfl
    | cons b rest ih =>
        cases h1 : newReqOk b with
        | true =>
            cases h2 : addOk b with
            | true =>
                cases h3 : sendOk b with
                | true => simp [sendHeartbeatsLoop, h1, h2, h3, sendAfterAdd, ih]
                | false => simp [sendHeartbeatsLoop, h1, h2, h3, sendAfterAdd, ih]
            | false => simp [sendHeartbeatsLoop, h1, h2, sendAfterAdd, ih]
        | false => simp [sendHeartbeatsLoop, h1, sendAfterAdd, ih]

/-- Synchronous outcomes and resolutions for one sendBundleHeartbeats run:
whether NewRequest, AddRequest and Send succeed for each bundle, and the
Response (if any) that arrived for the bundle's request by the deadline. -/
structure SBHEnv where
  newReqOk : Nat → Bool
  addOk : Nat → Bool
  sendOk : Nat → Bool
  arrived : Nat → Option Response

/-- All three synchronous per-bundle steps succeed: the request was built,
tracked and sent. -/
def sbhOk (env : SBHEnv) (b : Nat) : Bool :=
  env.newReqOk b && env.addOk b && env.sendOk b

/-- Translated from cmd/statspusher/bundle.go lines 123–146: the per-bundle
loop, returning (errored bundles, group members).  A bundle failing
NewRequest, AddRequest or Send is appended to `errored` and skipped
(`continue` in the source); on Send failure the request is also removed
from the group, so exactly the fully sent bundles are the members awaited
by Responses(). -/
def sbhLoop (env : SBHEnv) : List Nat → List Nat × List Nat
  | [] => ([], [])
  | b :: rest =>
      let p := sbhLoop env rest
      if env.newReqOk b = false then (b :: p.1, p.2)
      else if env.addOk b = false then (b :: p.1, p.2)
      else if env.sendOk b = false then (b :: p.1, p.2)
      else (p.1, b :: p.2)

/-- Translated from cmd/statspusher/bundle.go lines 137 and 148: member
names are the decimal strings of the bundle ids, and Responses() covers
each member with its arrived Response or a synthesized timeout. -/
def sbhResponses (env : SBHEnv) (members : List Nat) : List (String × Response) :=
  members.map
    (fun b => (Nat.repr b, (env.arrived b).getD (timeoutResponse (Nat.repr b))))

/-- The bundle's final Response carries an error: either a Response arrived
with a non-nil Error, or none arrived and the synthesized timeout does. -/
def sbhRespHasError (env : SBHEnv) (b : Nat) : Bool :=
  match env.arrived b with
  | some r => r.error.isSome
  | none => true

/-- Translated from cmd/statspusher/bundle.go lines 149–155: scan the
returned responses, appending the first errored one's bundle id to the
errored list (the source breaks after one; the id is re-parsed from the
member name with parse failure yielding 0). -/
def sbhErrored (env : SBHEnv) (bundles : List Nat) : List Nat :=
  match (sbhResponses env (sbhLoop env bundles).2).find?
      (fun q => q.2.error.isSome) with
  | some q => (sbhLoop env bundles).1 ++ [(q.1.toNat?).getD 0]
  | none => (sbhLoop env bundles).1

/-- Translated from cmd/statspusher/bundle.go, sendBundleHeartbeats (lines
119–161): returns an error exactly when the errored list is non-empty. -/
def sendBundleHeartbeats (env : SBHEnv) (bundles : List Nat) : Option String :=
  if (sbhErrored env bundles).isEmpty then none
  else some "one or more bundle heartbeats unsuccessful"

theorem sbhLoop_eq_filter (env : SBHEnv) (bundles : List Nat) :
    sbhLoop env bundles =
      (bundles.filter (fun b => !(sbhOk env b)),
        bundles.filter (fun b => sbhOk env b)) := by
  induction bundles with
  | nil => rfl
  | cons b rest ih =>
      cases hn : env.newReqOk b with
      | false => simp [sbhLoop, hn, ih, sbhOk, List.filter_cons]
      | true =>
          cases ha : env.addOk b with
          | false => simp [sbhLoop, hn, ha, ih, sbhOk, List.filter_cons]
          | true =>
              cases hs : env.sendOk b with
              | false => simp [sbhLoop, hn, ha, hs, ih, sbhOk, List.filter_cons]
              | true => simp [sbhLoop, hn, ha, hs, ih, sbhOk, List.filter_cons]

theorem sbhResp_error_eq (env : SBHEnv) (b : Nat) :
    ((env.arrived b).getD (timeoutResponse (Nat.repr b))).error.isSome =
      sbhRespHasError env b := by
  cases h : env.arrived b <;> simp [sbhRespHasError, h, timeoutResponse]

theorem filter_nonempty_iff {α : Type} (l : List α) (p : α → Bool) :
    (l.filter p).isEmpty = false ↔ ∃ a ∈ l, p a = true := by
  induction l with
  | nil => simp
  | cons x xs ih =>
      cases h : p x with
      | true => simp [List.filter_cons, h]
      | false => simp [List.filter_cons, h, ih]

theorem sbhResponses_find_none_iff (env : SBHEnv) (members : List Nat) :
    ((sbhResponses env members).find? (fun q => q.2.error.isSome) = none) ↔
      ∀ b ∈ members, sbhRespHasError env b = false := by
  rw [List.find?_eq_none]
  constructor
  · intro h b hb
    have hm := h (Nat.repr b, (env.arrived b).getD (timeoutResponse (Nat.repr b)))
      (List.mem_map_of_mem _ hb)
    simp only at hm
    rw [sbhResp_error_eq] at hm
    simpa using hm
  · intro h q hq
    obtain ⟨b, hb, hbe⟩ := List.mem_map.mp hq
    rw [← hbe]
    simp only
    rw [sbhResp_error_eq]
    simp [h b hb]

/-- Claim C6: `Responses()` itself never fails (typed total: it yields a
mapping, with per-member failures only as Error values in the Responses),
and `sendBundleHeartbeats` returns a non-nil error if and only if at least
one bundle's request could not be built, tracked, or sent, or at least one
returned Response carries an Error. -/
theorem sendBundleHeartbeats_error_iff (env : SBHEnv) (bundles : List Nat) :
    sendBundleHeartbeats env bundles ≠ none ↔
      ((∃ b ∈ bundles, sbhOk env b = false) ∨
        (∃ b ∈ bundles, sbhOk env b = true ∧ sbhRespHasError env b = true)) := by
  unfold sendBundleHeartbeats sbhErrored
  rw [sbhLoop_eq_filter]
  cases hf : (sbhResponses env (bundles.filter (fun b => sbhOk env b))).find?
      (fun q => q.2.error.isSome) with
  | none =>
      simp only [hf]
      have hall := (sbhResponses_find_none_iff env _).mp hf
      constructor
      · intro h
        left
        have he : (bundles.filter (fun b => !(sbhOk env b))).isEmpty = false := by
          cases hc : (bundles.filter (fun b => !(sbhOk env b))).isEmpty with
          | true => rw [hc] at h; simp at h
          | false => rfl
        obtain ⟨b, hb, hp⟩ := (filter_nonempty_iff _ _).mp he
        exact ⟨b, hb, by simpa using hp⟩
      · intro h
        rcases h with ⟨b, hb, hp⟩ | ⟨b, hb, h1, h2⟩
        · have he : (bundles.filter (fun b => !(sbhOk env b))).isEmpty = false :=
            (filter_nonempty_iff _ _).mpr ⟨b, hb, by simp [hp]⟩
          simp [he]
        · exact absurd (hall b (List.mem_filter.mpr ⟨hb, h1⟩)) (by simp [h2])
  | some q =>
      simp only [hf]
      constructor
      · intro _
        right
        have hq2 := List.find?_some hf
        simp only at hq2
        have hqm := List.mem_of_find?_eq_some hf
        obtain ⟨b, hbm, hbe⟩ := List.mem_map.mp hqm
        refine ⟨b, (List.mem_filter.mp hbm).1, (List.mem_filter.mp hbm).2, ?_⟩
        rw [← hbe] at hq2
        simp only at hq2
        rw [sbhResp_error_eq] at hq2
        exact hq2
      · intro _
        have hne :
            ((bundles.filter (fun b => !(sbhOk env b))) ++
              [(q.1.toNat?).getD 0]).isEmpty = false := by
          cases hl : bundles.filter (fun b => !(sbhOk env b)) <;> simp
        simp [hne]

/-- A value stored in the cluster KV store: raw data plus its mod index. -/
structure KVValue where
  data : String
  index : Nat
deriving DecidableEq, Repr

/-- Errors of the clusterconf service tasks.  The Go code dispatches on
error text with strings.Contains; the relevant messages are constructors
here. -/
inductive CErr where
  | unmarshalArgs
  | missingArgID
  | keyNotFound (key : String)
  | serviceConfigNotFound (id : String)
  | jsonUnmarshal (data : String)
deriving DecidableEq, Repr

/-- Translated from providers/clusterconf (ServiceConf,
src/unnamed/part_000 lines 25–32); the health-check map, limits, env and
cmd fields do not affect the control flow verified here and are carried as
one opaque payload. -/
structure ServiceConf where
  id : String
  dataset : String
  rest : String
deriving DecidableEq, Repr

/-- Translated from providers/clusterconf (Service, lines 17–22). -/
structure Service where
  conf : ServiceConf
  modIndex : Nat
deriving DecidableEq, Repr

/-- The cluster configuration state: the KV store plus the JSON decoding
of stored service configs (json.Unmarshal abstracted as a function). -/
structure ClusterConf where
  kv : List (String × KVValue)
  decode : String → Option ServiceConf

/-- Translated from reload (line 125): path.Join(servicesPrefix, id,
"config"). -/
def serviceConfigKey (id : String) : String := "services/" ++ id ++ "/config"

/-- Translated from Service.delete (line 142): path.Join(servicesPrefix,
id). -/
def serviceKey (id : String) : String := "services/" ++ id

/-- Modelled from the spec: the cluster KV lookup is outside the core
(only its boundary is specified); reload in src/unnamed/part_000 relies on
a missing key yielding a "key not found" error, which is what this
returns. -/
def kvGet (c : ClusterConf) (key : String) : Except CErr KVValue :=
  match c.kv.lookup key with
  | some v => Except.ok v
  | none => Except.error (CErr.keyNotFound key)

/-- Modelled from the spec: the KV delete used by Service.delete is
outside the core; it removes the service's subtree, with the mod-index
compare-and-delete always succeeding here (the claim under verification
never reaches this operation). -/
def kvDelete (c : ClusterConf) (key : String) : ClusterConf :=
  { c with kv := c.kv.filter (fun p => !(key.isPrefixOf p.1)) }

/-- Translated from providers/clusterconf (Service.reload,
src/unnamed/part_000 lines 124–139): read the config key, mapping a
missing key to the "service config not found" error, then decode the
stored JSON. -/
def reloadService (c : ClusterConf) (id : String) : Except CErr Service :=
  match kvGet c (serviceConfigKey id) with
  | Except.error e =>
      Except.error
        (match e with
          | CErr.keyNotFound _ => CErr.serviceConfigNotFound id
          | _ => e)
  | Except.ok v =>
      match c.decode v.data with
      | none => Except.error (CErr.jsonUnmarshal v.data)
      | some conf => Except.ok { conf := conf, modIndex := v.index }

/-- Translated from providers/clusterconf (getService, lines 113–122):
builds the service shell and reloads it from the store. -/
def getService (c : ClusterConf) (id : String) : Except CErr Service :=
  reloadService c id

/-- Translated from providers/clusterconf (Service.delete, lines
141–144). -/
def serviceDelete (c : ClusterConf) (s : Service) : Except CErr ClusterConf :=
  Except.ok (kvDelete c (serviceKey s.conf.id))

/-- Translated from providers/clusterconf (IDArgs usage in GetService /
DeleteService). -/
structure IDArgs where
  id : String
deriving DecidableEq, Repr

/-- Translated from providers/clusterconf (DeleteService,
src/unnamed/part_000 lines 93–111): unmarshal the args (none models an
unmarshal failure), reject an empty id, fetch the service — absorbing the
"service config not found" error into plain success — and otherwise
delete.  The source's result and URL return values are always nil, so the
model returns the (possibly updated) store and the task error. -/
def DeleteService (c : ClusterConf) (args : Option IDArgs) :
    ClusterConf × Option CErr :=
  match args with
  | none => (c, some CErr.unmarshalArgs)
  | some a =>
      if a.id = "" then (c, some CErr.missingArgID)
      else
        match getService c a.id with
        | Except.error e =>
            match e with
            | CErr.serviceConfigNotFound _ => (c, none)
            | _ => (c, some e)
        | Except.ok s =>
            match serviceDelete c s with
            | Except.ok c' => (c', none)
            | Except.error e => (c, some e)

/-- Claim C9: for a request whose args carry a non-empty id naming no
stored service config, DeleteService succeeds (nil result, nil URL, nil
error) rather than returning a not-found error, and deletes nothing — the
store is returned unchanged. -/
theorem deleteService_absorbs_not_found (c : ClusterConf) (id : String)
    (hid : id ≠ "") (hmiss : c.kv.lookup (serviceConfigKey id) = none) :
    DeleteService c (some { id := id }) = (c, none) := by
  have hg : getService c id = Except.error (CErr.serviceConfigNotFound id) := by
    unfold getService reloadService kvGet
    rw [hmiss]
  simp [DeleteService, hid, hg]

def confW9 : ClusterConf := { kv := [], decode := fun _ => none }

/-- Witness for C9 at a concrete empty store and id. -/
theorem deleteService_absorbs_not_found_witness :
    ("svc1" : String) ≠ "" ∧
    confW9.kv.lookup (serviceConfigKey "svc1") = none ∧
    DeleteService confW9 (some { id := "svc1" }) = (confW9, none) :=
  ⟨by decide, rfl, deleteService_absorbs_not_found confW9 "svc1" (by decide) rfl⟩

/-- Translated from providers/health/httpstatus.go (HTTPStatusArgs, lines
14–19); the request body is opaque here. -/
structure HTTPStatusArgs where
  url : String
  method : String
  body : String
  statusCode : Int
deriving DecidableEq, Repr

/-- Outcome of the HTTP round trip (http.NewRequest plus
http.DefaultClient.Do, abstracted as the check's I/O): either the request
fails, or it completes with a response status code. -/
inductive HTTPOutcome where
  | fail
  | completed (statusCode : Int)
deriving DecidableEq, Repr

/-- Errors of the HTTPStatus health check. -/
inductive HErr where
  | unmarshalArgs
  | missingURL
  | requestFailed
  | unexpectedStatus (expected actual : Int)
deriving DecidableEq, Repr

/-- Translated from providers/health/httpstatus.go (HTTPStatus, lines
23–49): a missing url is an error; an expected status code of 0 becomes
200 (http.StatusOK); then the check errors iff the request fails or the
actual status differs from the expected one. -/
def HTTPStatus (args : Option HTTPStatusArgs) (outcome : HTTPOutcome) :
    Option HErr :=
  match args with
  | none => some HErr.unmarshalArgs
  | some a =>
      if a.url = "" then some HErr.missingURL
      else
        let expected := if a.statusCode = 0 then 200 else a.statusCode
        match outcome with
        | HTTPOutcome.fail => some HErr.requestFailed
        | HTTPOutcome.completed code =>
            if code ≠ expected then some (HErr.unexpectedStatus expected code)
            else none

/-- Claim C10: for an HTTPStatus check with a non-empty URL, an expected
status code of 0 is treated exactly as 200, and the check returns nil
error iff the HTTP request completes with the expected status code. -/
theorem httpStatus_zero_default_and_nil_iff (a : HTTPStatusArgs)
    (outcome : HTTPOutcome) (hurl : a.url ≠ "") :
    HTTPStatus (some { a with statusCode := 0 }) outcome =
      HTTPStatus (some { a with statusCode := 200 }) outcome ∧
    (HTTPStatus (some a) outcome = none ↔
      outcome = HTTPOutcome.completed
        (if a.statusCode = 0 then 200 else a.statusCode)) := by
  constructor
  · cases outcome with
    | fail => simp [HTTPStatus, hurl]
    | completed code => simp [HTTPStatus, hurl]
  · cases outcome with
    | fail => simp [HTTPStatus, hurl]
    | completed code =>
        by_cases hc : code = (if a.statusCode = 0 then 200 else a.statusCode)
        · simp [HTTPStatus, hurl, hc]
        · simp [HTTPStatus, hurl, hc]

def argsW10 : HTTPStatusArgs :=
  { url := "http:node", method := "GET", body := "", statusCode := 0 }

/-- Witness for C10 at concrete arguments (expected code 0, response
200). -/
theorem httpStatus_zero_default_and_nil_iff_witness :
    argsW10.url ≠ "" ∧
    (HTTPStatus (some { argsW10 with statusCode := 0 })
        (HTTPOutcome.completed 200) =
      HTTPStatus (some { argsW10 with statusCode := 200 })
        (HTTPOutcome.completed 200) ∧
    (HTTPStatus (some argsW10) (HTTPOutcome.completed 200) = none ↔
      HTTPOutcome.completed 200 = HTTPOutcome.completed
        (if argsW10.statusCode = 0 then 200 else argsW10.statusCode))) :=
  ⟨by decide,
    httpStatus_zero_default_and_nil_iff argsW10 (HTTPOutcome.completed 200) (by decide)⟩
